import Mathlib

/-!
Verification development for the kzen-go MinIO proxy (Go package `minioserver`).

The Go handlers are shallowly embedded as pure Lean functions.  External
effects — the MinIO client calls (`GetObject`/`Stat`/`PutObject`/`RemoveObject`),
file-part IO and image codecs — are modelled as oracle functions supplied as
arguments, so that each handler's control flow and data flow is reproduced
exactly while the environment stays abstract.  Go byte slices are `List Nat`,
Go `float64` arithmetic in `resizeToFit` is modelled as exact rational
arithmetic, and the concurrent goroutine-per-item batch loops are modelled as
a pre-sized result array updated by an arbitrarily ordered schedule of
index-tagged slot writes.
-/

namespace Minioserver

/-- Go `strings.Contains s sub`: substring test over character lists. -/
def strContains (s sub : String) : Bool :=
  s.toList.tails.any (fun t => sub.toList.isPrefixOf t)

/-- Go `strings.TrimSpace`, over the character list (kernel-reducible, unlike
`String.trim`). -/
def strTrim (s : String) : String :=
  String.mk (((s.data.dropWhile Char.isWhitespace).reverse.dropWhile
    Char.isWhitespace).reverse)

/-- Go `strings.Split(s, ",")` over the character list. -/
def splitComma : List Char → List (List Char)
  | [] => [[]]
  | c :: rest =>
    match splitComma rest with
    | [] => [[]]
    | cur :: parts => if c = ',' then [] :: cur :: parts else (c :: cur) :: parts

/-- Go `strings.Split(s, ",")` followed by `strings.TrimSpace` on every entry,
as done for the `keys` parameter in `batchGet`, `batchPost` and `batchDelete`. -/
def splitTrim (s : String) : List String :=
  (splitComma s.data).map (fun k => strTrim (String.mk k))

/-! ### Batch executor

Each batch handler allocates `results := make([]result, len(keys))`, launches
one goroutine per non-skipped item which writes exactly its own slot
`results[idx]`, and joins with `wg.Wait()`.  `batchWrites` is the canonical
list of slot writes produced by the launch loop (in launch order); an actual
concurrent execution performs the same writes in some arbitrary completion
order, i.e. a permutation of `batchWrites`.  `runWrites` replays a schedule of
writes over the pre-sized array. -/

/-- The slot writes produced by `for i, key := range keys { if skip key then
continue; go func(i,key){ results[i] = task key } }`, starting at index `s`. -/
def batchWrites (task : κ → ρ) (skip : κ → Bool) : List κ → Nat → List (Nat × ρ)
  | [], _ => []
  | k :: ks, s =>
    (if skip k then [] else [(s, task k)]) ++ batchWrites task skip ks (s + 1)

/-- Replay a schedule of slot writes over a pre-sized result array. -/
def runWrites (init : List ρ) (ws : List (Nat × ρ)) : List ρ :=
  ws.foldl (fun acc w => acc.set w.1 w.2) init

theorem length_runWrites (init : List ρ) (ws : List (Nat × ρ)) :
    (runWrites init ws).length = init.length := by
  induction ws generalizing init with
  | nil => rfl
  | cons w ws ih =>
    simpa [runWrites, List.foldl_cons] using ih (init.set w.1 w.2)

theorem batchWrites_fst_bounds (task : κ → ρ) (skip : κ → Bool) :
    ∀ (ks : List κ) (s : Nat), ∀ w ∈ batchWrites task skip ks s,
      s ≤ w.1 ∧ w.1 < s + ks.length := by
  intro ks
  induction ks with
  | nil => intro s w hw; simp [batchWrites] at hw
  | cons k ks ih =>
    intro s w hw
    simp only [batchWrites, List.mem_append] at hw
    rcases hw with hw | hw
    · by_cases h : skip k = true
      · rw [if_pos h] at hw; simp at hw
      · rw [if_neg h] at hw
        simp only [List.mem_singleton] at hw
        subst hw
        refine ⟨Nat.le_refl _, ?_⟩
        simp only [List.length_cons]
        omega
    · obtain ⟨h1, h2⟩ := ih (s + 1) w hw
      simp only [List.length_cons]
      omega

/-- Distinct goroutines own distinct slots. -/
theorem batchWrites_pairwise_ne (task : κ → ρ) (skip : κ → Bool) :
    ∀ (ks : List κ) (s : Nat),
      (batchWrites task skip ks s).Pairwise (fun a b => a.1 ≠ b.1) := by
  intro ks
  induction ks with
  | nil => intro s; simp [batchWrites]
  | cons k ks ih =>
    intro s
    simp only [batchWrites]
    by_cases h : skip k = true
    · simpa [h] using ih (s + 1)
    · rw [if_neg h]
      simp only [List.singleton_append, List.pairwise_cons]
      refine ⟨?_, ih (s + 1)⟩
      intro w hw
      obtain ⟨h1, h2⟩ := batchWrites_fst_bounds task skip ks (s + 1) w hw
      have hne : s ≠ w.1 := by omega
      exact hne

/-- Replaying any permutation of the canonical write list gives the same
final array: slot writes at distinct indices commute. -/
theorem runWrites_perm (task : κ → ρ) (skip : κ → Bool) (ks : List κ) (s : Nat)
    (init : List ρ) (sched : List (Nat × ρ))
    (hp : sched.Perm (batchWrites task skip ks s)) :
    runWrites init sched = runWrites init (batchWrites task skip ks s) := by
  apply List.Perm.foldl_eq' hp
  intro x hx y hy z
  rcases eq_or_ne x y with h | h
  · subst h; rfl
  · have hpw : sched.Pairwise (fun a b => a.1 ≠ b.1) :=
      ((List.Perm.pairwise_iff (fun hab => Ne.symm hab) hp).2
        (batchWrites_pairwise_ne task skip ks s))
    have hne : x.1 ≠ y.1 :=
      hpw.forall (fun _ _ hab => Ne.symm hab) hx hy h
    exact List.set_comm _ _ _ hne

/-- Value of slot `j` after replaying the canonical writes: the task result of
item `j - s` when that item exists and is not skipped, the initial value
otherwise. -/
theorem runWrites_batchWrites_get (task : κ → ρ) (skip : κ → Bool) :
    ∀ (ks : List κ) (s : Nat) (init : List ρ) (j : Nat), j < init.length →
      (runWrites init (batchWrites task skip ks s))[j]? =
        if h : s ≤ j ∧ j - s < ks.length then
          (if skip (ks.get ⟨j - s, h.2⟩) then init[j]? else some (task (ks.get ⟨j - s, h.2⟩)))
        else init[j]? := by
  intro ks
  induction ks with
  | nil =>
    intro s init j hj
    rw [dif_neg (by simp)]
    rfl
  | cons k ks ih =>
    intro s init j hj
    by_cases hsk : skip k = true
    · have hsplit : runWrites init (batchWrites task skip (k :: ks) s) =
          runWrites init (batchWrites task skip ks (s + 1)) := by
        simp [batchWrites, hsk, runWrites]
      rw [hsplit, ih (s + 1) init j hj]
      rcases Nat.lt_trichotomy j s with hjs | hjs | hjs
      · rw [dif_neg (by omega), dif_neg (by simp only [List.length_cons]; omega)]
      · subst hjs
        rw [dif_neg (by omega), dif_pos (by refine ⟨Nat.le_refl _, ?_⟩; simp only [List.length_cons]; omega)]
        simp [Nat.sub_self, hsk]
      · by_cases hr : j - (s + 1) < ks.length
        · rw [dif_pos ⟨by omega, hr⟩,
            dif_pos (by refine ⟨by omega, ?_⟩; simp only [List.length_cons]; omega)]
          have hd : j - s = (j - (s + 1)) + 1 := by omega
          simp only [hd, List.get_cons_succ]
        · rw [dif_neg (by omega), dif_neg (by simp only [List.length_cons]; omega)]
    · have hsplit : runWrites init (batchWrites task skip (k :: ks) s) =
          runWrites (init.set s (task k)) (batchWrites task skip ks (s + 1)) := by
        simp [batchWrites, hsk, runWrites]
      rw [hsplit, ih (s + 1) (init.set s (task k)) j (by simpa using hj)]
      rcases Nat.lt_trichotomy j s with hjs | hjs | hjs
      · rw [dif_neg (by omega), dif_neg (by simp only [List.length_cons]; omega)]
        exact List.getElem?_set_ne (by omega)
      · subst hjs
        rw [dif_neg (by omega), dif_pos (by refine ⟨Nat.le_refl _, ?_⟩; simp only [List.length_cons]; omega)]
        simp only [Nat.sub_self, List.get_cons_zero]
        rw [if_neg (by simp [hsk])]
        exact List.getElem?_set_self hj
      · by_cases hr : j - (s + 1) < ks.length
        · rw [dif_pos ⟨by omega, hr⟩,
            dif_pos (by refine ⟨by omega, ?_⟩; simp only [List.length_cons]; omega)]
          have hd : j - s = (j - (s + 1)) + 1 := by omega
          simp only [hd, List.get_cons_succ]
          rw [List.getElem?_set_ne (by omega)]
        · rw [dif_neg (by omega), dif_neg (by simp only [List.length_cons]; omega)]
          exact List.getElem?_set_ne (by omega)

/-- Per-slot characterisation of a full concurrent batch execution: for every
schedule that is a permutation of the launched writes, the joined result array
has one slot per input item, and slot `i` holds exactly item `i`'s own task
result (or the zero value when item `i` was skipped), independently of the
completion order and of every other item's outcome. -/
theorem batch_exec_spec (task : κ → ρ) (skip : κ → Bool) (items : List κ) (d : ρ)
    (sched : List (Nat × ρ))
    (hp : sched.Perm (batchWrites task skip items 0)) :
    (runWrites (List.replicate items.length d) sched).length = items.length ∧
    ∀ i (h : i < items.length),
      (runWrites (List.replicate items.length d) sched)[i]? =
        some (if skip (items.get ⟨i, h⟩) then d else task (items.get ⟨i, h⟩)) := by
  have hlen : (runWrites (List.replicate items.length d) sched).length = items.length := by
    rw [length_runWrites]; simp
  refine ⟨hlen, ?_⟩
  intro i h
  rw [runWrites_perm task skip items 0 _ sched hp]
  rw [runWrites_batchWrites_get task skip items 0 (List.replicate items.length d) i (by simpa using h)]
  rw [dif_pos ⟨Nat.zero_le _, by omega⟩]
  have hrep : (List.replicate items.length d)[i]? = some d :=
    List.getElem?_replicate_of_lt h
  simp only [Nat.sub_zero, List.get_eq_getElem, hrep]
  split <;> rfl

/-! ### Per-item tasks of the three batch handlers

An item is the key paired with the store's abstract behaviour for that item's
goroutine.  `fetchTask` mirrors the `batchGet` goroutine body (GetObject,
`obj.Stat`, `io.ReadAll`, content-type defaulting), `uploadTask` the
`batchPost` goroutine body (`file.Open`, `PutObject`), `deleteTask` the
`batchDelete` goroutine body (`RemoveObject`). -/

/-- Outcome the store and IO give one `batchGet` goroutine. -/
inductive FetchOutcome
  | getErr (e : String)
  | statErr (e : String)
  | readErr (e : String)
  | found (data : List Nat) (ct : String)
deriving DecidableEq

/-- The Go `result` struct of `batchGet`. -/
structure FetchSlot where
  key : String
  data : List Nat
  ct : String
  err : Option String
deriving DecidableEq

/-- Zero value of the Go `result` struct: the value a skipped (blank-key)
slot keeps, since its goroutine is never launched. -/
def FetchSlot.zero : FetchSlot := ⟨"", [], "", none⟩

/-- Body of the `batchGet` goroutine for one item. -/
def fetchTask (item : String × FetchOutcome) : FetchSlot :=
  match item.2 with
  | .getErr e => ⟨item.1, [], "", some e⟩
  | .statErr e => ⟨item.1, [], "", some e⟩
  | .readErr e => ⟨item.1, [], "", some e⟩
  | .found data ct =>
      ⟨item.1, data, if ct = "" then "application/octet-stream" else ct, none⟩

/-- Outcome one `batchPost` goroutine observes. -/
inductive PutOutcome
  | openErr (e : String)
  | putErr (e : String)
  | stored
deriving DecidableEq

/-- The Go `uploadResult` struct of `batchPost`. -/
structure UploadSlot where
  key : String
  ok : Bool
  err : String
deriving DecidableEq

/-- Zero value of `uploadResult`. -/
def UploadSlot.zero : UploadSlot := ⟨"", false, ""⟩

/-- Body of the `batchPost` goroutine for one item. -/
def uploadTask (item : String × PutOutcome) : UploadSlot :=
  match item.2 with
  | .openErr e => ⟨item.1, false, e⟩
  | .putErr e => ⟨item.1, false, e⟩
  | .stored => ⟨item.1, true, ""⟩

/-- The Go `delResult` struct of `batchDelete`. -/
structure DelSlot where
  key : String
  ok : Bool
  err : String
deriving DecidableEq

/-- Zero value of `delResult`. -/
def DelSlot.zero : DelSlot := ⟨"", false, ""⟩

/-- Body of the `batchDelete` goroutine for one item;
the outcome is the `RemoveObject` result. -/
def deleteTask (item : String × Except String Unit) : DelSlot :=
  match item.2 with
  | .error e => ⟨item.1, false, e⟩
  | .ok _ => ⟨item.1, true, ""⟩

/-- Blank keys are skipped (`if key == "" { continue }`) in `batchGet` and
`batchDelete`; `batchPost` launches a goroutine for every index. -/
def skipBlank (item : String × α) : Bool := item.1 = ""

/-- C1: For every batch operation (fetch, upload, or delete) over N submitted
items, the joined result collection has exactly N entries and `results[i]` is
the per-item task result of `items[i]` (index-aligned with submission order)
for every schedule — i.e. every completion-order permutation of the launched
slot writes — and since slot `i` holds exactly item `i`'s own outcome, a
failure recorded for one item never prevents any other item's operation from
completing and being recorded.  Blank-key items are skipped by `batchGet` and
`batchDelete` and keep the zero-valued slot. -/
theorem batch_results_index_aligned
    (gets : List (String × FetchOutcome)) (puts : List (String × PutOutcome))
    (dels : List (String × Except String Unit))
    (sg : List (Nat × FetchSlot)) (sp : List (Nat × UploadSlot))
    (sd : List (Nat × DelSlot))
    (hg : sg.Perm (batchWrites fetchTask skipBlank gets 0))
    (hp : sp.Perm (batchWrites uploadTask (fun _ => false) puts 0))
    (hd : sd.Perm (batchWrites deleteTask skipBlank dels 0)) :
    ((runWrites (List.replicate gets.length FetchSlot.zero) sg).length = gets.length ∧
      ∀ i (h : i < gets.length),
        (runWrites (List.replicate gets.length FetchSlot.zero) sg)[i]? =
          some (if skipBlank (gets.get ⟨i, h⟩) then FetchSlot.zero
                else fetchTask (gets.get ⟨i, h⟩))) ∧
    ((runWrites (List.replicate puts.length UploadSlot.zero) sp).length = puts.length ∧
      ∀ i (h : i < puts.length),
        (runWrites (List.replicate puts.length UploadSlot.zero) sp)[i]? =
          some (uploadTask (puts.get ⟨i, h⟩))) ∧
    ((runWrites (List.replicate dels.length DelSlot.zero) sd).length = dels.length ∧
      ∀ i (h : i < dels.length),
        (runWrites (List.replicate dels.length DelSlot.zero) sd)[i]? =
          some (if skipBlank (dels.get ⟨i, h⟩) then DelSlot.zero
                else deleteTask (dels.get ⟨i, h⟩))) := by
  refine ⟨batch_exec_spec fetchTask skipBlank gets FetchSlot.zero sg hg, ?_,
    batch_exec_spec deleteTask skipBlank dels DelSlot.zero sd hd⟩
  obtain ⟨h1, h2⟩ := batch_exec_spec uploadTask (fun _ => false) puts UploadSlot.zero sp hp
  exact ⟨h1, fun i h => by simpa using h2 i h⟩

/-- Witness for C1 at a concrete three-item batch with a reversed (worst-case)
completion order: the middle key is blank and skipped, the last key fails, and
the results stay index-aligned. -/
theorem batch_results_index_aligned_witness :
    (runWrites (List.replicate 3 FetchSlot.zero)
        (batchWrites fetchTask skipBlank
          [("a", FetchOutcome.found [1, 2] "image/png"), ("", FetchOutcome.getErr "x"),
            ("b", FetchOutcome.getErr "boom")] 0).reverse)[2]? =
      some (fetchTask ("b", FetchOutcome.getErr "boom")) := by
  have h := (batch_results_index_aligned
    [("a", FetchOutcome.found [1, 2] "image/png"), ("", FetchOutcome.getErr "x"),
      ("b", FetchOutcome.getErr "boom")] [] []
    (batchWrites fetchTask skipBlank
      [("a", FetchOutcome.found [1, 2] "image/png"), ("", FetchOutcome.getErr "x"),
        ("b", FetchOutcome.getErr "boom")] 0).reverse [] []
    (List.reverse_perm _) (List.Perm.refl _) (List.Perm.refl _)).1.2 2 (by decide)
  simpa using h

/-! ### Response assembly of `batchGet` (multipart/mixed body) -/

/-- One part of the `multipart/mixed` response body. -/
structure Part where
  ct : String
  disposition : String
  data : List Nat
deriving DecidableEq

/-- The response-assembly loop of `batchGet`: skip every slot with a recorded
error, emit one part per remaining slot carrying the slot's content type and
a `Content-Disposition` naming the slot's key. -/
def assembleParts (results : List FetchSlot) : List Part :=
  (results.filter (fun res => res.err = none)).map
    (fun res =>
      ⟨res.ct, "form-data; name=\"" ++ res.key ++ "\"; filename=\"" ++ res.key ++ "\"",
        res.data⟩)

/-- Full `batchGet` body for a list of items, with the canonical (launch-order)
schedule; by `batch_exec_spec` every other schedule yields the same slots. -/
def batchGetParts (items : List (String × FetchOutcome)) : List Part :=
  assembleParts
    (runWrites (List.replicate items.length FetchSlot.zero)
      (batchWrites fetchTask skipBlank items 0))

/-- An item succeeds when its goroutine records no error, i.e. exactly when
the store resolves the key. -/
def fetchOk (item : String × FetchOutcome) : Bool :=
  match item.2 with
  | .found _ _ => true
  | _ => false

theorem runWrites_canonical_eq_map (task : κ → ρ) (skip : κ → Bool)
    (items : List κ) (d : ρ) :
    runWrites (List.replicate items.length d) (batchWrites task skip items 0) =
      items.map (fun it => if skip it then d else task it) := by
  obtain ⟨hlen, hget⟩ := batch_exec_spec task skip items d
    (batchWrites task skip items 0) (List.Perm.refl _)
  apply List.ext_getElem?
  intro i
  by_cases hi : i < items.length
  · rw [hget i hi]
    rw [List.getElem?_map, List.getElem?_eq_getElem hi]
    simp
  · rw [List.getElem?_eq_none (by omega), List.getElem?_eq_none (by simpa using hi)]

theorem fetchTask_err_eq_none (item : String × FetchOutcome) :
    ((fetchTask item).err = none) = (fetchOk item = true) := by
  rcases item with ⟨k, o⟩
  cases o <;> simp [fetchTask, fetchOk]

/-- C3 (amended): for a batch fetch over K requested keys, all nonempty, of
which M resolve successfully, the multipart body has exactly M parts — one per
successful item, in submission order, carrying the item's resolved content
type and a disposition naming its key — and the K−M failed items are omitted.
(The original claim fails when a requested key is blank: the blank slot's
zero value has no recorded error and is emitted as a spurious empty part, see
the counterexample.) -/
theorem batchGet_parts_one_per_success (items : List (String × FetchOutcome))
    (hne : ∀ it ∈ items, it.1 ≠ "") :
    batchGetParts items =
      (items.filter fetchOk).map
        (fun it =>
          ⟨(fetchTask it).ct,
            "form-data; name=\"" ++ it.1 ++ "\"; filename=\"" ++ it.1 ++ "\"",
            (fetchTask it).data⟩) ∧
    (batchGetParts items).length = (items.filter fetchOk).length := by
  have hrun : runWrites (List.replicate items.length FetchSlot.zero)
      (batchWrites fetchTask skipBlank items 0) = items.map fetchTask := by
    rw [runWrites_canonical_eq_map]
    apply List.map_congr_left
    intro it hit
    rw [if_neg (by simp [skipBlank, hne it hit])]
  have hmain : batchGetParts items =
      (items.filter fetchOk).map
        (fun it =>
          ⟨(fetchTask it).ct,
            "form-data; name=\"" ++ it.1 ++ "\"; filename=\"" ++ it.1 ++ "\"",
            (fetchTask it).data⟩) := by
    rw [batchGetParts, hrun, assembleParts, List.filter_map, List.map_map]
    have hf : (fun res => decide (res.err = none)) ∘ fetchTask = fetchOk := by
      funext it
      simp [Function.comp, fetchTask_err_eq_none]
    rw [hf]
    apply List.map_congr_left
    intro it hit
    have hkey : (fetchTask it).key = it.1 := by
      rcases it with ⟨k, o⟩; cases o <;> rfl
    simp [Function.comp, hkey]
  exact ⟨hmain, by rw [hmain, List.length_map]⟩

/-- Witness for C3's amended theorem: two nonempty keys, one succeeding and
one failing; exactly one part is produced and it names the successful key. -/
theorem batchGet_parts_one_per_success_witness :
    batchGetParts [("a", FetchOutcome.found [7] "image/jpeg"), ("b", FetchOutcome.statErr "denied")] =
      [⟨"image/jpeg", "form-data; name=\"a\"; filename=\"a\"", [7]⟩] := by
  have h := (batchGet_parts_one_per_success
    [("a", FetchOutcome.found [7] "image/jpeg"), ("b", FetchOutcome.statErr "denied")]
    (by decide)).1
  rw [h]; rfl

/-- Counterexample to C3 as stated: with requested keys `"a,"` — K = 2 keys
`["a", ""]`, of which M = 1 resolves — the body contains 2 parts, not 1: the
blank key's zero-valued slot carries `err = nil` and is emitted as an empty
part. -/
theorem batchGet_blank_key_spurious_part :
    (batchGetParts [("a", FetchOutcome.found [7] "image/jpeg"), ("", FetchOutcome.getErr "no such key")]).length = 2 ∧
    ([("a", FetchOutcome.found [7] "image/jpeg"), ("", FetchOutcome.getErr "no such key")].filter fetchOk).length = 1 := by
  constructor <;> rfl

/-! ### Shape validation of `batchPost` and of the image-upload variant -/

/-- Shape-validated `batchPost` request: the handler checks the multipart
content type, the form parse, the `keys` form field and the keys/files count
match, in that order, each failure answering 400 before any store call; only
an `ok` value reaches the upload phase (the goroutine loop with its
`PutObject` calls).  `filesLen` and `fileLen` are the part counts under the
`files` and `file` field names (the second is the fallback). -/
def batchPostExec (contentType : String) (parseOk : Bool) (keysParam : String)
    (filesLen fileLen : Nat) : Except Nat (List String) :=
  if strContains contentType "multipart/form-data" = false then .error 400
  else if parseOk = false then .error 400
  else if keysParam = "" then .error 400
  else
    let keyList := splitTrim keysParam
    let n := if filesLen ≠ 0 then filesLen else fileLen
    if n ≠ keyList.length then .error 400 else .ok keyList

/-- A multipart file part: original filename and declared content type. -/
structure FileHeader where
  filename : String
  contentType : String
deriving DecidableEq

/-- Decoded multipart form of the image-upload variant: whether
`ParseMultipartForm` succeeded, the value fields (`MultipartForm.Value`) and
the file fields (`MultipartForm.File`). -/
structure UploadForm where
  parseOk : Bool
  values : List (String × List String)
  fileFields : List (String × List FileHeader)
deriving DecidableEq

/-- Go `r.FormValue(k)`: first value under the field name, else `""`. -/
def formValue (form : UploadForm) (k : String) : String :=
  match form.values.lookup k with
  | some (v :: _) => v
  | _ => ""

/-- File headers under one field name of `MultipartForm.File`. -/
def fileArr (form : UploadForm) (k : String) : List FileHeader :=
  (form.fileFields.lookup k).getD []

/-- The ordered file parts: field `files`, falling back to `file`, then
`binary`. -/
def uploadFileHeaders (form : UploadForm) : List FileHeader :=
  let fs := fileArr form "files"
  if fs.length ≠ 0 then fs
  else
    let f1 := fileArr form "file"
    if f1.length ≠ 0 then f1 else fileArr form "binary"

/-- Parsed `imgPathsToDelete`: comma-split, trimmed, empties dropped (only
when the trimmed field itself is nonempty). -/
def parseImgPathsToDelete (s : String) : List String :=
  if s = "" then []
  else (splitTrim s).filter (fun p => p ≠ "")

/-- Control-flow skeleton of `uploadImagesToMinioServer` up to the point
where store calls begin.  Store calls (`PutObject`/`RemoveObject`) happen
only in the `execute` phase; `shapeError st` answers `{msg: ...}` with
status `st` immediately, and `earlyOk` answers 200 with empty `inserted`
and `deleted` lists, in both cases before any store call. -/
inductive UploadPhase
  | shapeError (status : Nat)
  | earlyOk
  | execute (fileHeaders : List FileHeader) (toDelete : List String)
deriving DecidableEq

/-- Validation and dispatch of the image-upload handler: parse failure,
blank `userId` and blank `folder` each answer 500; a request with no file
parts and nothing to delete answers 200 without touching the store;
otherwise the upload/delete phase runs. -/
def uploadImagesRoute (form : UploadForm) : UploadPhase :=
  if form.parseOk = false then .shapeError 500
  else if strTrim (formValue form "userId") = "" then .shapeError 500
  else if strTrim (formValue form "folder") = "" then .shapeError 500
  else
    let toDelete := parseImgPathsToDelete (strTrim (formValue form "imgPathsToDelete"))
    let fhs := uploadFileHeaders form
    if fhs.length = 0 ∧ toDelete.length = 0 then .earlyOk
    else .execute fhs toDelete

/-- Response of the `earlyOk` phase, from the source: status 200, empty
`inserted`, empty `deleted`. -/
def uploadEarlyResponse : Nat × List (String × String) × List String :=
  (200, [], [])

/-- C2 (amended): every request-shape error is answered before any store call
(batch-wide, no partial execution): the `/batch` upload endpoint answers 400
for a non-multipart content type, an unparseable form, a missing `keys` field
or a payload/keys count mismatch; the image-upload variant, however, answers
500 (not a 4xx status) for its shape errors — unparseable form, missing
`userId`, missing `folder`.  In both handlers the store-call phase is never
reached on a shape error. -/
theorem shape_errors_precede_store_calls :
    (∀ (ct : String) (parseOk : Bool) (keysParam : String) (filesLen fileLen : Nat),
      (strContains ct "multipart/form-data" = false ∨ parseOk = false ∨ keysParam = "" ∨
          (if filesLen ≠ 0 then filesLen else fileLen) ≠ (splitTrim keysParam).length) →
        batchPostExec ct parseOk keysParam filesLen fileLen = .error 400) ∧
    (∀ form : UploadForm,
      (form.parseOk = false ∨ strTrim (formValue form "userId") = "" ∨
          strTrim (formValue form "folder") = "") →
        uploadImagesRoute form = .shapeError 500) := by
  constructor
  · intro ct parseOk keysParam filesLen fileLen h
    unfold batchPostExec
    by_cases h1 : strContains ct "multipart/form-data" = false
    · rw [if_pos h1]
    · rw [if_neg h1]
      by_cases h2 : parseOk = false
      · rw [if_pos h2]
      · rw [if_neg h2]
        by_cases h3 : keysParam = ""
        · rw [if_pos h3]
        · rw [if_neg h3]
          have h4 : (if filesLen ≠ 0 then filesLen else fileLen) ≠ (splitTrim keysParam).length := by
            tauto
          rw [if_pos h4]
  · intro form h
    unfold uploadImagesRoute
    by_cases h1 : form.parseOk = false
    · rw [if_pos h1]
    · rw [if_neg h1]
      by_cases h2 : strTrim (formValue form "userId") = ""
      · rw [if_pos h2]
      · rw [if_neg h2]
        have h3 : strTrim (formValue form "folder") = "" := by tauto
        rw [if_pos h3]

/-- Witness for C2's amended theorem: a `/batch` upload with 2 payloads but 3
explicit keys is rejected with 400 before the store phase, and an image-upload
form with a blank `userId` is rejected with 500 before the store phase. -/
theorem shape_errors_precede_store_calls_witness :
    batchPostExec "multipart/form-data; boundary=x" true "a.jpg,b.jpg,c.jpg" 2 0 =
        Except.error 400 ∧
    uploadImagesRoute ⟨true, [("folder", ["f"])], [("files", [⟨"a.jpg", "image/jpeg"⟩])]⟩ =
        UploadPhase.shapeError 500 := by
  constructor
  · exact shape_errors_precede_store_calls.1 "multipart/form-data; boundary=x" true
      "a.jpg,b.jpg,c.jpg" 2 0 (by right; right; right; decide)
  · exact shape_errors_precede_store_calls.2 ⟨true, [("folder", ["f"])], [("files", [⟨"a.jpg", "image/jpeg"⟩])]⟩
      (by right; left; decide)

/-- Counterexample to C2 as stated: the image-upload variant's shape error for
a request missing the required `userId` field is answered with status 500,
which is not a 4xx status. -/
theorem upload_shape_error_is_500_not_4xx :
    uploadImagesRoute ⟨true, [("folder", ["f"])], []⟩ = UploadPhase.shapeError 500 ∧
    ¬ (400 ≤ 500 ∧ 500 < 500) := by
  exact ⟨by decide, by omega⟩

/-- C10: an image-upload request that parses, has nonempty `userId` and
`folder`, contains zero file parts (under `files`, `file` and `binary`) and an
empty `imgPathsToDelete` list is answered with status 200, empty `inserted`
and `deleted` lists, and no store call at all (the execute phase is never
reached). -/
theorem upload_empty_request_is_noop (form : UploadForm)
    (hparse : form.parseOk = true)
    (huser : strTrim (formValue form "userId") ≠ "")
    (hfolder : strTrim (formValue form "folder") ≠ "")
    (hfiles : uploadFileHeaders form = [])
    (hdel : parseImgPathsToDelete (strTrim (formValue form "imgPathsToDelete")) = []) :
    uploadImagesRoute form = UploadPhase.earlyOk ∧
    uploadEarlyResponse = (200, [], []) := by
  refine ⟨?_, rfl⟩
  unfold uploadImagesRoute
  rw [if_neg (by simp [hparse]), if_neg huser, if_neg hfolder]
  simp only [hdel, hfiles]
  rw [if_pos ⟨rfl, rfl⟩]

/-- Witness for C10 at a concrete form carrying only `userId` and `folder`. -/
theorem upload_empty_request_is_noop_witness :
    uploadImagesRoute ⟨true, [("userId", ["u1"]), ("folder", ["f"])], []⟩ =
      UploadPhase.earlyOk := by
  exact (upload_empty_request_is_noop ⟨true, [("userId", ["u1"]), ("folder", ["f"])], []⟩
    rfl (by decide) (by decide) (by decide) (by decide)).1

/-! ### Correlation resolver of the image-upload variant -/

/-- Lower-casing over the character list (Go `strings.ToLower`). -/
def lowerStr (s : String) : String :=
  String.mk (s.data.map Char.toLower)

/-- Go `strings.HasSuffix`, over the character list. -/
def strEndsWith (s suf : String) : Bool :=
  suf.data.isSuffixOf s.data

/-- Reserved form-field names of the image-upload handler
(`isKnownFormField`). -/
def isKnownFormField (key : String) : Bool :=
  ["userId", "folder", "imgPathsToDelete", "imgPaths", "paths", "path", "imgPath",
    "ids", "id", "fileIds", "fileId", "newSources", "attachedFiles", "files",
    "file", "binary"].contains key

/-- The handler's filename heuristic: the lower-cased field name must end in
one of the recognised image extensions. -/
def hasImageExt (key : String) : Bool :=
  let lk := lowerStr key
  strEndsWith lk ".jpg" || strEndsWith lk ".jpeg" || strEndsWith lk ".png" ||
    strEndsWith lk ".gif" || strEndsWith lk ".svg" || strEndsWith lk ".webp"

/-- Construction of the `pathByFilename` map: every non-reserved value field
whose name carries a recognised image extension maps the field name (treated
as an original filename) to the trimmed first value.  The Go map has one
entry per distinct field name; the association list keeps form-field order
and `lookup` takes the first match. -/
def buildPathByFilename : List (String × List String) → List (String × String)
  | [] => []
  | (k, ws) :: rest =>
    match ws with
    | [] => buildPathByFilename rest
    | v :: _ =>
      if isKnownFormField k = false ∧ hasImageExt k = true then
        (k, strTrim v) :: buildPathByFilename rest
      else buildPathByFilename rest

/-- Per-part resolution cascade of the upload loop: filename map first, then
the identifier map via the part's positional file id, then the index-matched
path list; `""` means no source matched (a fresh name is generated later). -/
def resolveImgPath (pbf : List (String × String))
    (pathById : Option (List (String × String)))
    (fileIds : List String) (imgPaths : List String)
    (i : Nat) (filename : String) : String :=
  let p1 :=
    match pbf.lookup filename with
    | some p => p
    | none => ""
  let p2 :=
    if p1 ≠ "" then p1
    else
      match pathById, fileIds[i]? with
      | some m, some fid =>
        match m.lookup fid with
        | some p => p
        | none => ""
      | _, _ => ""
  if p2 ≠ "" then p2 else (imgPaths[i]?).getD ""

theorem lookup_buildPathByFilename (values : List (String × List String))
    (fn v : String) (vs : List String)
    (hl : values.lookup fn = some (v :: vs))
    (hext : hasImageExt fn = true) (hknown : isKnownFormField fn = false) :
    (buildPathByFilename values).lookup fn = some (strTrim v) := by
  induction values with
  | nil => simp at hl
  | cons kv rest ih =>
    rcases kv with ⟨k, ws⟩
    rw [List.lookup_cons] at hl
    by_cases hk : (fn == k) = true
    · have hkeq : fn = k := eq_of_beq hk
      subst hkeq
      rw [hk] at hl
      have hws : ws = v :: vs := by
        injection hl
      subst hws
      show (buildPathByFilename ((fn, v :: vs) :: rest)).lookup fn = some (strTrim v)
      rw [show buildPathByFilename ((fn, v :: vs) :: rest) =
          (fn, strTrim v) :: buildPathByFilename rest by
        simp only [buildPathByFilename]
        rw [if_pos ⟨hknown, hext⟩]]
      exact List.lookup_cons_self
    · have hk' : (fn == k) = false := by
        simpa using hk
      rw [hk'] at hl
      have hrest := ih hl
      rcases ws with _ | ⟨w, ws'⟩
      · simpa only [buildPathByFilename] using hrest
      · by_cases hcond : isKnownFormField k = false ∧ hasImageExt k = true
        · rw [show buildPathByFilename ((k, w :: ws') :: rest) =
              (k, strTrim w) :: buildPathByFilename rest by
            simp only [buildPathByFilename]
            rw [if_pos hcond]]
          rw [List.lookup_cons, hk']
          exact hrest
        · rw [show buildPathByFilename ((k, w :: ws') :: rest) =
              buildPathByFilename rest by
            simp only [buildPathByFilename]
            rw [if_neg hcond]]
          exact hrest

/-- C4 (amended): for every uploaded part whose original filename both carries
a recognised image extension (`.jpg`/`.jpeg`/`.png`/`.gif`/`.svg`/`.webp`,
case-insensitive) and is not a reserved field name, if a form field of that
name is present with a nonempty trimmed value, the resolved destination path
is that field's trimmed value, taking priority over the identifier map and
the index-matched path list whatever they contain.  (The original claim
omits the extension and reserved-name restrictions; see the
counterexample.) -/
theorem filename_map_takes_priority (values : List (String × List String))
    (pathById : Option (List (String × String)))
    (fileIds : List String) (imgPaths : List String) (i : Nat)
    (fn v : String) (vs : List String)
    (hl : values.lookup fn = some (v :: vs))
    (hext : hasImageExt fn = true) (hknown : isKnownFormField fn = false)
    (hnz : strTrim v ≠ "") :
    resolveImgPath (buildPathByFilename values) pathById fileIds imgPaths i fn =
      strTrim v := by
  unfold resolveImgPath
  rw [lookup_buildPathByFilename values fn v vs hl hext hknown]
  simp [hnz]

/-- Witness for C4's amended theorem: filename-map field `"a.jpg" → "u1/x.jpg"`
wins over an identifier map and a path list that are both present. -/
theorem filename_map_takes_priority_witness :
    resolveImgPath (buildPathByFilename [("a.jpg", ["u1/x.jpg"])])
        (some [("id1", "u1/y.jpg")]) ["id1"] ["other/z.jpg"] 0 "a.jpg" =
      "u1/x.jpg" := by
  have h := filename_map_takes_priority [("a.jpg", ["u1/x.jpg"])]
    (some [("id1", "u1/y.jpg")]) ["id1"] ["other/z.jpg"] 0 "a.jpg" "u1/x.jpg" []
    (by decide) (by decide) (by decide) (by decide)
  simpa using h

/-- Counterexample to C4 as stated: the part's filename `"a.bmp"` appears as
the name of a form metadata field with value `"u1/x.jpg"`, yet the resolved
destination is the identifier map's `"u1/y.jpg"` — the filename map is only
consulted for names with a recognised image extension, and `.bmp` is not
one. -/
theorem filename_map_ignores_unrecognised_ext :
    resolveImgPath (buildPathByFilename [("a.bmp", ["u1/x.jpg"])])
        (some [("id1", "u1/y.jpg")]) ["id1"] ["other/z.jpg"] 0 "a.bmp" =
      "u1/y.jpg" := by
  decide

/-! ### Delete phase of the image-upload variant -/

/-- Body of one delete goroutine of the image-upload handler: a `RemoveObject`
error whose text reports the object as absent (`does not exist` / `NoSuchKey`)
is skipped — no error recorded, no deleted path recorded; any other error is
recorded; success records the client-supplied path. -/
def deleteSlot (p : String) (outcome : Except String Unit) : Option String × String :=
  match outcome with
  | .ok _ => (none, p)
  | .error e =>
    if strContains e "does not exist" || strContains e "NoSuchKey" then (none, "")
    else (some e, "")

/-- The joined `deleteErrors`/`deletedPaths` arrays, slot `i` from path `i`. -/
def runDeleteSlots (paths : List String) (out : Nat → Except String Unit) :
    List (Option String × String) :=
  paths.enum.map (fun ip => deleteSlot ip.2 (out ip.1))

/-- Post-join status of the delete phase: any recorded delete error answers
500, otherwise 200. -/
def uploadDeleteStatus (slots : List (Option String × String)) : Nat :=
  if slots.any (fun s => s.1.isSome) then 500 else 200

/-- The response's `deleted` list: nonempty recorded paths, in order. -/
def deletedList (slots : List (Option String × String)) : List String :=
  (slots.map (fun s => s.2)).filter (fun p => p ≠ "")

theorem runDeleteSlots_getElem (paths : List String) (out : Nat → Except String Unit)
    (j : Nat) (hj : j < paths.length) :
    (runDeleteSlots paths out)[j]? = some (deleteSlot (paths.get ⟨j, hj⟩) (out j)) := by
  unfold runDeleteSlots
  rw [List.getElem?_map]
  rw [List.getElem?_enum]
  rw [List.getElem?_eq_getElem hj]
  simp

/-- C8: a path whose `RemoveObject` fails with the store's object-absent error
is treated as a no-op success: its slot records no error and no deleted path,
the request still answers 200 whenever every other slot is error-free, and the
returned `deleted` list is exactly the one computed without that slot. -/
theorem upload_delete_absent_is_noop (paths : List String)
    (out : Nat → Except String Unit) (i : Nat) (e : String)
    (hi : i < paths.length)
    (he : out i = Except.error e)
    (habs : (strContains e "does not exist" || strContains e "NoSuchKey") = true) :
    (runDeleteSlots paths out)[i]? = some (none, "") ∧
    ((∀ j, (hj : j < paths.length) → j ≠ i →
        (deleteSlot (paths.get ⟨j, hj⟩) (out j)).1 = none) →
      uploadDeleteStatus (runDeleteSlots paths out) = 200) ∧
    deletedList (runDeleteSlots paths out) =
      deletedList ((runDeleteSlots paths out).eraseIdx i) := by
  have hslot : deleteSlot (paths.get ⟨i, hi⟩) (out i) = (none, "") := by
    rw [he]
    simp only [deleteSlot]
    rw [if_pos habs]
  have hgeti : (runDeleteSlots paths out)[i]? = some (none, "") := by
    rw [runDeleteSlots_getElem paths out i hi, hslot]
  refine ⟨hgeti, ?_, ?_⟩
  · intro hothers
    have hnone : ¬ ((runDeleteSlots paths out).any (fun s => s.1.isSome) = true) := by
      simp only [List.any_eq_true, not_exists, not_and]
      intro x hx
      simp only [runDeleteSlots, List.mem_map] at hx
      obtain ⟨ip, hip, rfl⟩ := hx
      have hj : ip.1 < paths.length := List.fst_lt_of_mem_enum hip
      have hget : paths[ip.1]? = some ip.2 := List.mem_enum_iff_getElem?.1 hip
      have hgeteq : paths.get ⟨ip.1, hj⟩ = ip.2 := by
        rw [List.getElem?_eq_getElem hj] at hget
        simpa using hget
      by_cases hji : ip.1 = i
      · subst hji
        have hsz : deleteSlot ip.2 (out ip.1) = (none, "") := by
          rw [← hgeteq]
          exact hslot
        simp [hsz]
      · have h2 := hothers ip.1 hj hji
        rw [hgeteq] at h2
        simp [h2]
    unfold uploadDeleteStatus
    rw [if_neg hnone]
  · have hsplit : runDeleteSlots paths out =
        (runDeleteSlots paths out).take i ++
          (none, "") :: (runDeleteSlots paths out).drop (i + 1) := by
      have hlen : i < (runDeleteSlots paths out).length := by
        simp [runDeleteSlots]
        omega
      conv_lhs => rw [← List.take_append_drop i (runDeleteSlots paths out)]
      congr 1
      rw [List.drop_eq_getElem_cons hlen]
      congr 1
      have := hgeti
      rw [List.getElem?_eq_getElem hlen] at this
      simpa using this
    rw [List.eraseIdx_eq_take_drop_succ]
    conv_lhs => rw [hsplit]
    rw [show (runDeleteSlots paths out).take i ++
          (none, "") :: (runDeleteSlots paths out).drop (i + 1) =
        (runDeleteSlots paths out).take i ++
          ([((none : Option String), "")] ++ (runDeleteSlots paths out).drop (i + 1)) by simp]
    unfold deletedList
    simp only [List.map_append, List.filter_append, List.map_cons, List.map_nil,
      List.filter_cons, List.singleton_append]
    simp

/-- Witness for C8: three delete paths where the middle one is reported
absent; the request succeeds and the `deleted` list names only the other
two. -/
theorem upload_delete_absent_is_noop_witness :
    (runDeleteSlots ["a.jpg", "b.jpg", "c.jpg"]
        (fun j => if j = 1 then Except.error "NoSuchKey: the object does not exist" else Except.ok ()))[1]? =
      some (none, "") := by
  exact (upload_delete_absent_is_noop ["a.jpg", "b.jpg", "c.jpg"]
    (fun j => if j = 1 then Except.error "NoSuchKey: the object does not exist" else Except.ok ())
    1 "NoSuchKey: the object does not exist" (by decide) rfl (by decide)).1

/-! ### resizeToFit -/

/-- `resizeToFit` bounds-and-scale computation on the image dimensions, with
the Go `float64` arithmetic modelled as exact rational arithmetic and Go's
`int(...)` conversion (truncation of a nonnegative value) as the rational
floor; `if newW < 1 { newW = 1 }` is the final clamp. -/
def resizeToFit (origW origH maxW maxH : Nat) : Nat × Nat :=
  if origW ≤ maxW ∧ origH ≤ maxH then (origW, origH)
  else
    let scaleW : ℚ := (maxW : ℚ) / (origW : ℚ)
    let scaleH : ℚ := (maxH : ℚ) / (origH : ℚ)
    let scale := if scaleH < scaleW then scaleH else scaleW
    let newW := (Int.floor ((origW : ℚ) * scale)).toNat
    let newH := (Int.floor ((origH : ℚ) * scale)).toNat
    (if newW < 1 then 1 else newW, if newH < 1 then 1 else newH)

theorem clampOne_eq_max (n : Nat) : (if n < 1 then 1 else n) = max n 1 := by
  rcases n with _ | m
  · rfl
  · rw [if_neg (by omega)]
    omega

/-- C5: a decoded raster image that already fits within 1920×1080 is returned
with dimensions unchanged; otherwise both dimensions are scaled by the single
factor `min (1920/w) (1080/h)`, each result rounded down and clamped to at
least 1 pixel, and the result fits within 1920×1080 and never exceeds the
original dimensions. -/
theorem resizeToFit_spec (w h : Nat) (hw : 0 < w) (hh : 0 < h) :
    (w ≤ 1920 ∧ h ≤ 1080 → resizeToFit w h 1920 1080 = (w, h)) ∧
    (¬ (w ≤ 1920 ∧ h ≤ 1080) →
      resizeToFit w h 1920 1080 =
        (max (Int.floor ((w : ℚ) * min ((1920 : ℚ) / w) ((1080 : ℚ) / h))).toNat 1,
          max (Int.floor ((h : ℚ) * min ((1920 : ℚ) / w) ((1080 : ℚ) / h))).toNat 1) ∧
      (resizeToFit w h 1920 1080).1 ≤ 1920 ∧ (resizeToFit w h 1920 1080).2 ≤ 1080 ∧
      (resizeToFit w h 1920 1080).1 ≤ w ∧ (resizeToFit w h 1920 1080).2 ≤ h) := by
  constructor
  · intro hfit
    unfold resizeToFit
    rw [if_pos hfit]
  · intro hnofit
    have hw0 : (0 : ℚ) < (w : ℚ) := by exact_mod_cast hw
    have hh0 : (0 : ℚ) < (h : ℚ) := by exact_mod_cast hh
    have hsel : (if ((1080 : ℚ) / h) < ((1920 : ℚ) / w) then ((1080 : ℚ) / h)
        else ((1920 : ℚ) / w)) = min ((1920 : ℚ) / w) ((1080 : ℚ) / h) := by
      rcases lt_or_ge ((1080 : ℚ) / h) ((1920 : ℚ) / w) with hlt | hge
      · rw [if_pos hlt, min_eq_right (le_of_lt hlt)]
      · rw [if_neg (not_lt.mpr hge), min_eq_left hge]
    have hred : resizeToFit w h 1920 1080 =
        (max (Int.floor ((w : ℚ) * min ((1920 : ℚ) / w) ((1080 : ℚ) / h))).toNat 1,
          max (Int.floor ((h : ℚ) * min ((1920 : ℚ) / w) ((1080 : ℚ) / h))).toNat 1) := by
      unfold resizeToFit
      rw [if_neg hnofit]
      simp only [Nat.cast_ofNat, hsel, clampOne_eq_max]
    have hsW : min ((1920 : ℚ) / w) ((1080 : ℚ) / h) ≤ (1920 : ℚ) / w := min_le_left _ _
    have hsH : min ((1920 : ℚ) / w) ((1080 : ℚ) / h) ≤ (1080 : ℚ) / h := min_le_right _ _
    have hs1 : min ((1920 : ℚ) / w) ((1080 : ℚ) / h) ≤ 1 := by
      rcases not_and_or.mp hnofit with hbig | hbig
      · have hwgt : (1920 : ℚ) < (w : ℚ) := by exact_mod_cast Nat.lt_of_not_le hbig
        exact le_of_lt (lt_of_le_of_lt hsW ((div_lt_one hw0).mpr hwgt))
      · have hhgt : (1080 : ℚ) < (h : ℚ) := by exact_mod_cast Nat.lt_of_not_le hbig
        exact le_of_lt (lt_of_le_of_lt hsH ((div_lt_one hh0).mpr hhgt))
    have hb1920 : (Int.floor ((w : ℚ) * min ((1920 : ℚ) / w) ((1080 : ℚ) / h))).toNat ≤ 1920 := by
      rw [Int.toNat_le]
      have hle : (w : ℚ) * min ((1920 : ℚ) / w) ((1080 : ℚ) / h) ≤ ((1920 : Int) : ℚ) := by
        calc (w : ℚ) * min ((1920 : ℚ) / w) ((1080 : ℚ) / h)
            ≤ (w : ℚ) * ((1920 : ℚ) / w) :=
              mul_le_mul_of_nonneg_left hsW (le_of_lt hw0)
          _ = ((1920 : Int) : ℚ) := by
              rw [mul_comm, div_mul_cancel₀]
              · norm_num
              · exact ne_of_gt hw0
      calc Int.floor ((w : ℚ) * min ((1920 : ℚ) / w) ((1080 : ℚ) / h))
          ≤ Int.floor (((1920 : Int) : ℚ)) := Int.floor_le_floor hle
        _ = 1920 := Int.floor_intCast _
    have hb1080 : (Int.floor ((h : ℚ) * min ((1920 : ℚ) / w) ((1080 : ℚ) / h))).toNat ≤ 1080 := by
      rw [Int.toNat_le]
      have hle : (h : ℚ) * min ((1920 : ℚ) / w) ((1080 : ℚ) / h) ≤ ((1080 : Int) : ℚ) := by
        calc (h : ℚ) * min ((1920 : ℚ) / w) ((1080 : ℚ) / h)
            ≤ (h : ℚ) * ((1080 : ℚ) / h) :=
              mul_le_mul_of_nonneg_left hsH (le_of_lt hh0)
          _ = ((1080 : Int) : ℚ) := by
              rw [mul_comm, div_mul_cancel₀]
              · norm_num
              · exact ne_of_gt hh0
      calc Int.floor ((h : ℚ) * min ((1920 : ℚ) / w) ((1080 : ℚ) / h))
          ≤ Int.floor (((1080 : Int) : ℚ)) := Int.floor_le_floor hle
        _ = 1080 := Int.floor_intCast _
    have hbw : (Int.floor ((w : ℚ) * min ((1920 : ℚ) / w) ((1080 : ℚ) / h))).toNat ≤ w := by
      rw [Int.toNat_le]
      have hle : (w : ℚ) * min ((1920 : ℚ) / w) ((1080 : ℚ) / h) ≤ ((w : Int) : ℚ) := by
        calc (w : ℚ) * min ((1920 : ℚ) / w) ((1080 : ℚ) / h)
            ≤ (w : ℚ) * 1 := mul_le_mul_of_nonneg_left hs1 (le_of_lt hw0)
          _ = ((w : Int) : ℚ) := by push_cast; ring
      calc Int.floor ((w : ℚ) * min ((1920 : ℚ) / w) ((1080 : ℚ) / h))
          ≤ Int.floor (((w : Int) : ℚ)) := Int.floor_le_floor hle
        _ = (w : Int) := Int.floor_intCast _
    have hbh : (Int.floor ((h : ℚ) * min ((1920 : ℚ) / w) ((1080 : ℚ) / h))).toNat ≤ h := by
      rw [Int.toNat_le]
      have hle : (h : ℚ) * min ((1920 : ℚ) / w) ((1080 : ℚ) / h) ≤ ((h : Int) : ℚ) := by
        calc (h : ℚ) * min ((1920 : ℚ) / w) ((1080 : ℚ) / h)
            ≤ (h : ℚ) * 1 := mul_le_mul_of_nonneg_left hs1 (le_of_lt hh0)
          _ = ((h : Int) : ℚ) := by push_cast; ring
      calc Int.floor ((h : ℚ) * min ((1920 : ℚ) / w) ((1080 : ℚ) / h))
          ≤ Int.floor (((h : Int) : ℚ)) := Int.floor_le_floor hle
        _ = (h : Int) := Int.floor_intCast _
    refine ⟨hred, ?_, ?_, ?_, ?_⟩ <;> rw [hred] <;> simp only [] <;> omega

/-- Witness for C5: a 4000×3000 image is scaled down to 1440×1080 (the height
constraint binds: the scale factor is 1080/3000), and an 800×600 image is
returned unchanged. -/
theorem resizeToFit_spec_witness :
    resizeToFit 800 600 1920 1080 = (800, 600) ∧
    (resizeToFit 4000 3000 1920 1080).1 ≤ 1920 ∧
    (resizeToFit 4000 3000 1920 1080).2 ≤ 1080 := by
  refine ⟨(resizeToFit_spec 800 600 (by decide) (by decide)).1 (by decide), ?_, ?_⟩
  · exact ((resizeToFit_spec 4000 3000 (by decide) (by decide)).2 (by decide)).2.1
  · exact ((resizeToFit_spec 4000 3000 (by decide) (by decide)).2 (by decide)).2.2.1

/-! ### processRasterImage -/

/-- `processRasterImage` over abstract codecs: `decode` is `image.Decode`,
`encodeJpeg` is `jpeg.Encode` at quality 100 (`none` models an encode error),
`resize` is `resizeToFit img 1920 1080`; a decode failure returns the raw
bytes with the generic binary content type, an encode failure after resize
retries on the unresized decoded image, and a second failure falls back to
the raw bytes.  `filename` is used only for logging in the source. -/
def processRasterImage {Img : Type} (decode : List Nat → Option Img)
    (encodeJpeg : Img → Option (List Nat)) (resize : Img → Img)
    (data : List Nat) (_filename : String) : List Nat × String :=
  match decode data with
  | none => (data, "application/octet-stream")
  | some img =>
    match encodeJpeg (resize img) with
    | some b => (b, "image/jpeg")
    | none =>
      match encodeJpeg img with
      | some b2 => (b2, "image/jpeg")
      | none => (data, "application/octet-stream")

/-- C6: the raster pipeline is total — it returns a `(bytes, contentType)`
pair on every input and never an error — and follows the three-tier fallback:
decode failure returns the original bytes as generic binary; a successful
re-encode of the resized image returns it as JPEG; if that encode fails, the
unresized decoded image is re-encoded instead; if that also fails, the
original raw bytes are returned as generic binary. -/
theorem processRasterImage_total_fallbacks {Img : Type}
    (decode : List Nat → Option Img) (encodeJpeg : Img → Option (List Nat))
    (resize : Img → Img) (data : List Nat) (filename : String) :
    (decode data = none →
      processRasterImage decode encodeJpeg resize data filename =
        (data, "application/octet-stream")) ∧
    (∀ img b, decode data = some img → encodeJpeg (resize img) = some b →
      processRasterImage decode encodeJpeg resize data filename = (b, "image/jpeg")) ∧
    (∀ img b, decode data = some img → encodeJpeg (resize img) = none →
      encodeJpeg img = some b →
      processRasterImage decode encodeJpeg resize data filename = (b, "image/jpeg")) ∧
    (∀ img, decode data = some img → encodeJpeg (resize img) = none →
      encodeJpeg img = none →
      processRasterImage decode encodeJpeg resize data filename =
        (data, "application/octet-stream")) := by
  refine ⟨?_, ?_, ?_, ?_⟩
  · intro h
    simp only [processRasterImage, h]
  · intro img b h1 h2
    simp only [processRasterImage, h1, h2]
  · intro img b h1 h2 h3
    simp only [processRasterImage, h1, h2, h3]
  · intro img h1 h2 h3
    simp only [processRasterImage, h1, h2, h3]

/-- Witness for C6 at concrete codecs: a decode failure degrades to the raw
bytes, and a resize-stage encode failure degrades to the encode of the
unresized image. -/
theorem processRasterImage_total_fallbacks_witness :
    processRasterImage (fun _ => (none : Option Unit)) (fun _ => some [9])
        (fun i => i) [1, 2, 3] "a.jpg" = ([1, 2, 3], "application/octet-stream") ∧
    processRasterImage (fun _ => some true) (fun b => if b then none else some [7])
        (fun _ => true) [1, 2, 3] "b.png" = ([1, 2, 3], "application/octet-stream") := by
  constructor
  · exact (processRasterImage_total_fallbacks (fun _ => (none : Option Unit))
      (fun _ => some [9]) (fun i => i) [1, 2, 3] "a.jpg").1 rfl
  · exact (processRasterImage_total_fallbacks (fun _ => some true)
      (fun b => if b then none else some [7]) (fun _ => true) [1, 2, 3] "b.png").2.2.2
      true rfl rfl rfl

/-! ### Stat retry of the single-object fetch path -/

/-- `statRetries` constant of the source. -/
def statRetries : Nat := 3

/-- `statRetryDelay` constant of the source, in milliseconds. -/
def statRetryDelayMs : Nat := 50

/-- The retry loop of `proxyGetWithPrefix`: `stat n` is the outcome of the
`StatObject` call on attempt `n`; the function returns the surfaced result,
the number of stat calls made and the number of fixed delays slept.  A
success or a non-transient error (text without `Access Denied`) ends the
loop at once; a transient error sleeps and retries unless this was the last
allowed attempt. -/
def statLoop {α : Type} (stat : Nat → Except String α) :
    Nat → Nat → Except String α × Nat × Nat
  | _, 0 => (Except.error "", 0, 0)
  | attempt, rem + 1 =>
    match stat attempt with
    | Except.ok v => (Except.ok v, 1, 0)
    | Except.error e =>
      if strContains e "Access Denied" = false then (Except.error e, 1, 0)
      else if rem = 0 then (Except.error e, 1, 0)
      else
        match statLoop stat (attempt + 1) rem with
        | (r, n, d) => (r, n + 1, d + 1)

/-- The stat phase of the single-object GET handler. -/
def statWithRetry {α : Type} (stat : Nat → Except String α) :
    Except String α × Nat × Nat :=
  statLoop stat 0 statRetries

theorem statLoop_calls_le {α : Type} (stat : Nat → Except String α) :
    ∀ (rem attempt : Nat), (statLoop stat attempt rem).2.1 ≤ rem := by
  intro rem
  induction rem with
  | zero => intro attempt; simp [statLoop]
  | succ r ih =>
    intro attempt
    cases hs : stat attempt with
    | ok v => simp [statLoop, hs]
    | error e =>
      by_cases hc : strContains e "Access Denied" = false
      · simp [statLoop, hs, hc]
      · have hcc : strContains e "Access Denied" = true := by
          rcases hb : strContains e "Access Denied" with _ | _
          · exact absurd hb hc
          · rfl
        by_cases hr : r = 0
        · simp [statLoop, hs, hcc, hr]
        · have hle := ih (attempt + 1)
          rcases hrec : statLoop stat (attempt + 1) r with ⟨res, n, d⟩
          rw [hrec] at hle
          have hn : n ≤ r := by simpa using hle
          simp only [statLoop, hs, hcc, hr, hrec]
          simp
          omega

/-- C7: on the single-object fetch path the stat call is attempted up to
`statRetries = 3` times: a first failure with the transient `Access Denied`
error is retried after a fixed delay, a run of three transient failures
surfaces the last error after 3 stat calls and 2 delays, a success stops the
loop immediately, and a failure of any other error class is surfaced at once
after a single call with no retry and no delay. -/
theorem stat_access_denied_retry {α : Type} :
    (∀ (stat : Nat → Except String α) (e : String),
      stat 0 = Except.error e → strContains e "Access Denied" = false →
      statWithRetry stat = (Except.error e, 1, 0)) ∧
    (∀ (stat : Nat → Except String α) (e0 e1 e2 : String),
      stat 0 = Except.error e0 → stat 1 = Except.error e1 →
      stat 2 = Except.error e2 →
      strContains e0 "Access Denied" = true →
      strContains e1 "Access Denied" = true →
      strContains e2 "Access Denied" = true →
      statWithRetry stat = (Except.error e2, 3, 2)) ∧
    (∀ (stat : Nat → Except String α) (v : α),
      stat 0 = Except.ok v → statWithRetry stat = (Except.ok v, 1, 0)) ∧
    (∀ (stat : Nat → Except String α) (e0 : String) (v : α),
      stat 0 = Except.error e0 → strContains e0 "Access Denied" = true →
      stat 1 = Except.ok v → statWithRetry stat = (Except.ok v, 2, 1)) ∧
    (∀ stat : Nat → Except String α, (statWithRetry stat).2.1 ≤ statRetries) := by
  refine ⟨?_, ?_, ?_, ?_, ?_⟩
  · intro stat e h0 hc
    unfold statWithRetry statRetries statLoop
    simp [h0, hc]
  · intro stat e0 e1 e2 h0 h1 h2 hc0 hc1 hc2
    unfold statWithRetry statRetries
    unfold statLoop
    unfold statLoop
    unfold statLoop
    simp [h0, h1, h2, hc0, hc1, hc2]
  · intro stat v h0
    unfold statWithRetry statRetries statLoop
    simp [h0]
  · intro stat e0 v h0 hc0 h1
    unfold statWithRetry statRetries
    unfold statLoop
    unfold statLoop
    simp [h0, h1, hc0]
  · intro stat
    exact statLoop_calls_le stat statRetries 0

/-- Witness for C7: a stat that always fails with `Access Denied` is called
3 times with 2 delays, and a stat failing with `connection refused` is
surfaced after a single call. -/
theorem stat_access_denied_retry_witness :
    statWithRetry (fun _ => (Except.error "Access Denied." : Except String Unit)) =
      (Except.error "Access Denied.", 3, 2) ∧
    statWithRetry (fun _ => (Except.error "connection refused" : Except String Unit)) =
      (Except.error "connection refused", 1, 0) := by
  constructor
  · exact stat_access_denied_retry.2.1 _ "Access Denied." "Access Denied." "Access Denied."
      rfl rfl rfl (by decide) (by decide) (by decide)
  · exact stat_access_denied_retry.1 _ "connection refused" rfl (by decide)

/-! ### API-key middleware -/

/-- Credential selection of `apiKeyMiddleware`: the `X-API-Key` header when
nonempty; otherwise the `Authorization` header's token when it carries the
`Bearer ` marker (Go `strings.HasPrefix`/`TrimPrefix` over the character
list), and `""` otherwise. -/
def selectApiKey (xApiKey auth : String) : String :=
  if xApiKey ≠ "" then xApiKey
  else if "Bearer ".data.isPrefixOf auth.data then
    String.mk (auth.data.drop ("Bearer ".data.length))
  else ""

/-- `apiKeyMiddleware` decision for one request: `none` passes the request on
to the next handler, `some 401` rejects it with the JSON error body. -/
def apiKeyMiddleware (apiKey method reqPath xApiKey auth : String) : Option Nat :=
  if reqPath = "/health" ∨ reqPath = "/health/" then none
  else if method = "OPTIONS" then none
  else if method = "GET" then none
  else if selectApiKey xApiKey auth ≠ apiKey then some 401 else none

/-- C9 (amended): with an API key configured, the middleware passes through
every request to `/health` or `/health/`, every OPTIONS request and every GET
request without a credential check; any other request is either passed
through or rejected with 401, and it passes exactly when the selected
credential — the `X-API-Key` header when nonempty, otherwise the
`Authorization` Bearer token — equals the configured key.  (The original
claim's `X-API-Key or Bearer` reading fails: a wrong `X-API-Key` shadows a
correct Bearer token, see the counterexample.) -/
theorem apiKey_middleware_characterization (apiKey method reqPath x auth : String) :
    (apiKeyMiddleware apiKey method reqPath x auth = none ∨
      apiKeyMiddleware apiKey method reqPath x auth = some 401) ∧
    (apiKeyMiddleware apiKey method reqPath x auth = none ↔
      (reqPath = "/health" ∨ reqPath = "/health/" ∨ method = "OPTIONS" ∨
        method = "GET" ∨ selectApiKey x auth = apiKey)) := by
  unfold apiKeyMiddleware
  split_ifs with h1 h2 h3 h4
  · exact ⟨Or.inl rfl, by simp; tauto⟩
  · exact ⟨Or.inl rfl, by simp; tauto⟩
  · exact ⟨Or.inl rfl, by simp; tauto⟩
  · refine ⟨Or.inr rfl, ?_⟩
    constructor
    · intro hc; cases hc
    · intro hc
      exfalso
      rcases hc with hc | hc | hc | hc
      · exact h1 (Or.inl hc)
      · exact h1 (Or.inr hc)
      · exact h2 hc
      · rcases hc with hc | hc
        · exact h3 hc
        · exact h4 hc
  · refine ⟨Or.inl rfl, ?_⟩
    constructor
    · intro _
      right; right; right; right
      exact not_not.mp h4
    · intro _; rfl

/-- Counterexample to C9 as stated: a POST to `/batch` carrying the exact
configured key in `Authorization: Bearer` is nonetheless rejected with 401,
because the (wrong) `X-API-Key` header takes precedence. -/
theorem apiKey_bearer_shadowed_by_xapikey :
    apiKeyMiddleware "secret" "POST" "/batch" "wrong" ("Bearer " ++ "secret") =
      some 401 ∧
    apiKeyMiddleware "secret" "POST" "/batch" "wrong" ("Bearer " ++ "secret") ≠
      none := by
  constructor <;> decide

end Minioserver
